import Mathlib

/-!
# bfsxtract: a shallow embedding of `src/main.cpp`

The program opens `FISHES.ELF` with the ELFIO library, finds the ten-entry
table `bfsTab` inside the `.data` section and copies the nine files the
table describes into the directory `out`.

Conventions of the embedding.

* Machine integers are natural numbers; every C++ operation that can wrap is
  written with an explicit `% 2 ^ w`.  `std::size_t` and `Elf64_Addr` are
  64 bits wide, `ps2_ptr_t` and `std::uint32_t` are 32 bits wide.
* The ELFIO library is not part of the program.  A loaded image is a list of
  named sections and the list of symbols of its symbol table; `load` failing
  is the value `none`.
* Behaviour that C++ leaves undefined (a read outside the section buffer, a
  call through a null section pointer, an index outside a fixed-size array,
  element 0 of an empty vector) is an explicit `Fault`.
* An exception that nothing catches ends the process through
  `std::terminate`; that is defined behaviour and an `Outcome`, not a `Fault`.
  Memory allocation is taken to succeed.
* The table is decoded in little-endian byte order, the order of both the
  PlayStation 2 and the usual host.
-/

namespace Bfsxtract

/-- One byte of a section buffer or of an extracted file. -/
abbrev Byte := Fin 256

/-- The ways in which the C++ code can leave defined behaviour. -/
inductive Fault
  /-- a member call through a null `eio::section*` -/
  | nullSection
  /-- a read outside the bytes of the section buffer -/
  | outOfBounds
  /-- an index outside a fixed-size array -/
  | tableIndex
  /-- element 0 of an empty `std::vector` -/
  | vectorIndex
  /-- the loop model ran out of fuel (never happens, see the theorems) -/
  | outOfFuel
  deriving DecidableEq, Repr

deriving instance DecidableEq for Except

namespace fishes

/-- `enum class bfsID : std::uint32_t`: an object of the type can hold any
32-bit value, so it is a number here; the enumerators follow. -/
abbrev bfsID := Nat

def bfsID.Invalid : Nat := 0
def bfsID.Hdreg1_Vu1 : Nat := 1
def bfsID.Hdreg2_Vu1 : Nat := 2
def bfsID.Hdregu_Rmi : Nat := 3
def bfsID.K_Vrtb_Rmi : Nat := 4
def bfsID.Nhead_Rmi : Nat := 5
def bfsID.P_Rtx : Nat := 6
def bfsID.Tex_Rtx : Nat := 7
def bfsID.Wat_Rtx : Nat := 8
def bfsID.T_Smooth_Rmi : Nat := 9

/-- The `constexpr const char* table[]` of `BfsIdToFileName`. -/
def BfsIdToFileName.table : List String :=
  [ "<null_file>",
    "hdreg1.vu1",
    "hdreg2.vu1",
    "hdregu.rmi",
    "k_vrtb.rmi",
    "nhead.rmi",
    "p.rtx",
    "tex.rtx",
    "wat.rtx",
    "t_smooth.rmi" ]

/-- `std::string BfsIdToFileName(bfsID id)`: `table[static_cast<uint32_t>(id)]`.
The array has ten elements; an index past it is a fault. -/
def BfsIdToFileName (id : Nat) : Except Fault String :=
  match BfsIdToFileName.table[id]? with
  | some s => .ok s
  | none => .error .tableIndex

/-- `struct bfsTabEntry`: four 32-bit fields (the first two of type
`ps2_ptr_t`, which is `std::uint32_t`), 16 bytes. -/
structure bfsTabEntry where
  startAddress : Nat
  endAddress : Nat
  useCount : Nat
  pad_to_10h : Nat
  deriving DecidableEq, Repr

/-- `bfsTabEntry::Length()`: `static_cast<std::size_t>(endAddress - startAddress)`,
the subtraction being done on `std::uint32_t`. -/
def bfsTabEntry.Length (e : bfsTabEntry) : Nat :=
  (e.endAddress % 2 ^ 32 + 2 ^ 32 - e.startAddress % 2 ^ 32) % 2 ^ 32

end fishes

open fishes

/-- What the program uses of an `eio::section`: its name, `get_address()`
and the buffer `get_data()` of `get_size()` bytes. -/
structure Section where
  name : String
  address : Nat
  data : List Byte
  deriving DecidableEq, Repr

/-- A symbol table entry: its name and its value (an `Elf64_Addr`). -/
structure Symbol where
  name : String
  value : Nat
  deriving DecidableEq, Repr

/-- A loaded `eio::elfio`: the sections in file order and the symbols of
`.symtab`. -/
structure elfio where
  sections : List Section
  symbols : List Symbol
  deriving DecidableEq, Repr

/-- `elfFile.sections[name]`: the first section of that name, or a null
pointer. -/
def elfio.sectionByName (e : elfio) (name : String) : Option Section :=
  e.sections.find? (fun s => s.name == name)

/-- `symAccessor->get_symbol(name, value, ...)`: the value of the first
symbol of that name when there is one. -/
def elfio.get_symbol (e : elfio) (name : String) : Option Nat :=
  (e.symbols.find? (fun s => s.name == name)).map (fun s => s.value)

/-- `fishes::bfsTabEntry cachedTable[10]`: an array of exactly ten entries. -/
abbrev Table := { l : List bfsTabEntry // l.length = 10 }

/-- `cachedTable[10] {}`: value-initialised, every field zero. -/
def Table.zero : Table :=
  ⟨List.replicate 10 ⟨0, 0, 0, 0⟩, by simp⟩

/-- `cachedTable[i]` as an rvalue. -/
def Table.get? (t : Table) (i : Nat) : Option bfsTabEntry :=
  t.val[i]?

/-- `cachedTable[i] = e`. -/
def Table.set (t : Table) (i : Nat) (e : bfsTabEntry) : Table :=
  ⟨t.val.set i e, by simp [t.property]⟩

/-- A little-endian 32-bit word. -/
def le32 (b0 b1 b2 b3 : Byte) : Nat :=
  b0.val + 256 * b1.val + 65536 * b2.val + 16777216 * b3.val

/-- The 32-bit word stored at byte offset `off` of `data`. -/
def readU32 (data : List Byte) (off : Nat) : Nat :=
  le32 (data.getD off 0) (data.getD (off + 1) 0) (data.getD (off + 2) 0)
    (data.getD (off + 3) 0)

/-- The `bfsTabEntry` object stored at byte offset `off` of `data`: the
four fields at offsets 0, 4, 8 and 12. -/
def decodeEntry (data : List Byte) (off : Nat) : bfsTabEntry :=
  { startAddress := readU32 data off
    endAddress := readU32 data (off + 4)
    useCount := readU32 data (off + 8)
    pad_to_10h := readU32 data (off + 12) }

/-- Reading a `bfsTabEntry` through a pointer `off` bytes into the buffer:
all 16 bytes must lie inside the buffer. -/
def readEntry (data : List Byte) (off : Nat) : Except Fault bfsTabEntry :=
  if off + 16 ≤ data.length then .ok (decodeEntry data off) else .error .outOfBounds

/-- `buffer.resize(n)` on a `std::vector<std::uint8_t>`: keep the first `n`
bytes and fill up with zero bytes. -/
def resize (buffer : List Byte) (n : Nat) : List Byte :=
  buffer.take n ++ List.replicate (n - buffer.length) 0

/-- `memcpy(&dst[0], src + srcOff, n)` together with the evaluation of its
arguments, in program order: the pointer `src + srcOff` must stay inside
`src` (one past the end included), `dst[0]` must exist, the `n` source bytes
must lie inside `src` and `dst` must have room for them. -/
def memcpy (dst src : List Byte) (srcOff n : Nat) : Except Fault (List Byte) :=
  if src.length < srcOff then .error .outOfBounds
  else if dst.length = 0 then .error .vectorIndex
  else if n ≤ dst.length ∧ srcOff + n ≤ src.length then
    .ok ((src.drop srcOff).take n ++ dst.drop n)
  else .error .outOfBounds

/-- The state of a `BfsReader` that `ReadFile` and `Valid` use: the flag
`valid`, the pointer `dataSec` (with the section it points to) and
`cachedTable`.  The members `elfFile` and `symAccessor` are used by the
constructor only and appear there as local values. -/
structure BfsReader where
  valid : Bool
  dataSec : Option Section
  cachedTable : Table
  deriving DecidableEq

namespace BfsReader

/-- `static std::size_t UnsectionedAddress(std::size_t addr, eio::section* section)`:
`addr - section->get_address()` on 64-bit unsigned integers. -/
def UnsectionedAddress (addr : Nat) (sec : Section) : Nat :=
  (addr % 2 ^ 64 + 2 ^ 64 - sec.address % 2 ^ 64) % 2 ^ 64

/-- The loop `for(int i = 0; i < 10; ++i)` of the constructor, from counter
`i` on. -/
def readTableLoop (dataSec : Option Section) (bfsTabStartAddress : Nat) :
    Nat → Nat → Table → Except Fault Table
  | 0, _, _ => .error .outOfFuel
  | fuel + 1, i, cachedTable =>
    if i < 10 then
      match dataSec with
      | none => .error .nullSection
      | some sec =>
        match readEntry sec.data (UnsectionedAddress bfsTabStartAddress sec + 16 * i) with
        | .error f => .error f
        | .ok tableIndex =>
          readTableLoop dataSec bfsTabStartAddress fuel (i + 1) (cachedTable.set i tableIndex)
    else .ok cachedTable

/-- `explicit BfsReader(const std::string& filename)`.  `loaded` is what
`elfFile.load(filename)` produced (`none` when it returned false);
`uninit` is the value the local `bfsTabStartAddress` holds when
`get_symbol` does not assign it. -/
def new (loaded : Option elfio) (uninit : Nat) : Except Fault BfsReader :=
  match loaded with
  | none => .ok { valid := false, dataSec := none, cachedTable := Table.zero }
  | some elfFile =>
    let dataSec := elfFile.sectionByName ".data"
    let bfsTabStartAddress := (elfFile.get_symbol "bfsTab").getD uninit
    match readTableLoop dataSec bfsTabStartAddress 11 0 Table.zero with
    | .error f => .error f
    | .ok t => .ok { valid := true, dataSec := dataSec, cachedTable := t }

/-- `std::vector<std::uint8_t> ReadFile(std::uint32_t id)`: the bytes
returned and the state of the reader after the call.  `id` stands for a
32-bit value.  For a record of `Length` zero the buffer is empty and
`&buffer[0]` has no element to refer to: the fault is raised in `memcpy`. -/
def ReadFile (r : BfsReader) (id : Nat) : Except Fault (List Byte × BfsReader) :=
  if id = bfsID.Invalid then .ok ([], r)
  else if !r.valid then .ok ([], r)
  else
    match r.cachedTable.get? id with
    | none => .error .tableIndex
    | some tEntry =>
      match r.dataSec with
      | none => .error .nullSection
      | some sec =>
        let fileStart := UnsectionedAddress tEntry.startAddress sec
        let buffer := resize [] tEntry.Length
        match memcpy buffer sec.data fileStart tEntry.Length with
        | .error f => .error f
        | .ok buffer => .ok (buffer, r)

/-- `bool Valid() const`. -/
def Valid (r : BfsReader) : Bool :=
  r.valid

end BfsReader

/-- What the driver sees of the file system.  `pathExists p` is the result of
`fs::exists(p)`, `none` when the call throws; `createDirectories p` tells
whether `fs::create_directories(p)` returns, `false` when it throws;
`canOpen p` tells whether a `std::ofstream` on `p` opens. -/
structure FileSystem where
  pathExists : String → Option Bool
  createDirectories : String → Bool
  canOpen : String → Bool

/-- How the process ends: `main` returns a status, or an exception that
nothing catches reaches `std::terminate`. -/
inductive Outcome
  /-- `return status` from `main` -/
  | exit (status : Nat)
  /-- uncaught exception: the process is aborted -/
  | terminate
  deriving DecidableEq, Repr

/-- The observable actions of the driver, in program order. -/
inductive Event
  /-- the message that the provided ELF is invalid -/
  | invalidElf
  /-- `fs::create_directories(path)` -/
  | createDirectories (path : String)
  /-- the stream on `path` did not open: the message, nothing written -/
  | openFailed (path : String)
  /-- `ofs.write` of `content` to the stream on `path`, and the message -/
  | wrote (path : String) (content : List Byte)
  deriving DecidableEq, Repr

/-- `outPath / name` on a `fs::path`, for a relative `name`. -/
def pathJoin (dir name : String) : String :=
  dir ++ "/" ++ name

/-- The loop `for(std::uint32_t i = 1; i < 10; ++i)` of `main`, from counter
`i` on; `out` is what has been done so far.  On an open stream
`ofs.write(&buffer[0], buffer.size())` needs element 0 of the buffer. -/
def mainLoop (fsys : FileSystem) (outPath : String) :
    Nat → Nat → BfsReader → List Event → Except Fault (List Event)
  | 0, _, _, _ => .error .outOfFuel
  | fuel + 1, i, reader, out =>
    if i < 10 then
      match BfsIdToFileName i with
      | .error f => .error f
      | .ok name =>
        let fileOut := pathJoin outPath name
        match reader.ReadFile i with
        | .error f => .error f
        | .ok (buffer, reader) =>
          if fsys.canOpen fileOut then
            if buffer.length = 0 then .error .vectorIndex
            else
              mainLoop fsys outPath fuel ((i + 1) % 2 ^ 32) reader
                (out ++ [.wrote fileOut buffer])
          else
            mainLoop fsys outPath fuel ((i + 1) % 2 ^ 32) reader (out ++ [.openFailed fileOut])
    else .ok out

/-- `int main()`: how the process ends and the actions done.  `loaded` and
`uninit` are as for `BfsReader.new`.  `fs::exists` and
`fs::create_directories` are the throwing overloads and `main` has no
handler, so an exception from either ends the process. -/
def main (loaded : Option elfio) (uninit : Nat) (fsys : FileSystem) :
    Except Fault (Outcome × List Event) :=
  match BfsReader.new loaded uninit with
  | .error f => .error f
  | .ok reader =>
    if !reader.Valid then .ok (.exit 1, [.invalidElf])
    else
      let outPath := "out"
      match fsys.pathExists outPath with
      | none => .ok (.terminate, [])
      | some true =>
        match mainLoop fsys outPath 10 1 reader [] with
        | .error f => .error f
        | .ok out => .ok (.exit 0, out)
      | some false =>
        if fsys.createDirectories outPath then
          match mainLoop fsys outPath 10 1 reader [.createDirectories outPath] with
          | .error f => .error f
          | .ok out => .ok (.exit 0, out)
        else .ok (.terminate, [])

/-! ## A sample image

A `.data` section at address `0x1000`: the ten-entry table first, then nine
files of three bytes each. -/

/-- The four bytes of a 32-bit word, little-endian. -/
def encodeU32 (n : Nat) : List Byte :=
  [Fin.ofNat n, Fin.ofNat (n / 256), Fin.ofNat (n / 65536), Fin.ofNat (n / 16777216)]

/-- The 16 bytes of a table entry. -/
def encodeEntry (e : bfsTabEntry) : List Byte :=
  encodeU32 e.startAddress ++ encodeU32 e.endAddress ++ encodeU32 e.useCount ++
    encodeU32 e.pad_to_10h

/-- Entry `i` of the sample table: file `i` is the three bytes from
`0x1000 + 160 + 3 * (i - 1)` on; entry 0 is zero. -/
def sampleEntry (i : Nat) : bfsTabEntry :=
  if i = 0 then ⟨0, 0, 0, 0⟩
  else ⟨4096 + 160 + 3 * (i - 1), 4096 + 160 + 3 * i, i, 0⟩

/-- The bytes of the files of the sample: file `i` is `[16 * i, 16 * i + 1, 16 * i + 2]`. -/
def samplePayload : List Byte :=
  (List.range 9).flatMap fun k =>
    [Fin.ofNat (16 * (k + 1)), Fin.ofNat (16 * (k + 1) + 1), Fin.ofNat (16 * (k + 1) + 2)]

/-- The `.data` section of the sample. -/
def sampleData : Section :=
  { name := ".data"
    address := 4096
    data := (List.range 10).flatMap (fun i => encodeEntry (sampleEntry i)) ++ samplePayload }

/-- The sample image: `.text`, `.data`, and a symbol table with `bfsTab`. -/
def sampleElf : elfio :=
  { sections := [⟨".text", 0, [1, 2, 3, 4]⟩, sampleData]
    symbols := [⟨"main", 0⟩, ⟨"bfsTab", 4096⟩] }

/-- The reader the constructor builds from the sample. -/
def sampleReader : BfsReader :=
  { valid := true
    dataSec := some sampleData
    cachedTable := ⟨(List.range 10).map sampleEntry, by simp⟩ }

/-- The sample image without the symbol `bfsTab`. -/
def noSymbolElf : elfio :=
  { sections := [⟨".text", 0, [1, 2, 3, 4]⟩, sampleData]
    symbols := [⟨"main", 0⟩] }

/-- The sample image without the section `.data`. -/
def noDataElf : elfio :=
  { sections := [⟨".text", 0, [1, 2, 3, 4]⟩]
    symbols := [⟨"main", 0⟩, ⟨"bfsTab", 4096⟩] }

/-- The three bytes of file `i` of the sample. -/
def sampleFile (i : Nat) : List Byte :=
  [Fin.ofNat (16 * i), Fin.ofNat (16 * i + 1), Fin.ofNat (16 * i + 2)]

/-- A file system without the directory `out` in which every stream opens
except the one on `out/p.rtx`. -/
def sampleFileSystem : FileSystem :=
  { pathExists := fun _ => some false
    createDirectories := fun _ => true
    canOpen := fun p => p != "out/p.rtx" }

/-- A file system with the directory `out` in which no stream opens. -/
def noOpenFileSystem : FileSystem :=
  { pathExists := fun _ => some true
    createDirectories := fun _ => true
    canOpen := fun _ => false }

/-- A file system without the directory `out` in which it cannot be created:
`fs::create_directories` throws. -/
def noDirectoryFileSystem : FileSystem :=
  { pathExists := fun _ => some false
    createDirectories := fun _ => false
    canOpen := fun _ => true }

/-- Entry `i` of a table whose record 1 is an empty file at `0x1000 + 160`,
inside the section; the other entries are those of the sample. -/
def zeroLengthEntry (i : Nat) : bfsTabEntry :=
  if i = 1 then ⟨4096 + 160, 4096 + 160, 1, 0⟩ else sampleEntry i

/-- The `.data` section of the sample with that table. -/
def zeroLengthData : Section :=
  { name := ".data"
    address := 4096
    data := (List.range 10).flatMap (fun i => encodeEntry (zeroLengthEntry i)) ++ samplePayload }

/-- The sample image with that section. -/
def zeroLengthElf : elfio :=
  { sections := [⟨".text", 0, [1, 2, 3, 4]⟩, zeroLengthData]
    symbols := [⟨"main", 0⟩, ⟨"bfsTab", 4096⟩] }

/-- The reader the constructor builds from it. -/
def zeroLengthReader : BfsReader :=
  { valid := true
    dataSec := some zeroLengthData
    cachedTable := ⟨(List.range 10).map zeroLengthEntry, by simp⟩ }

/-- A reader over the sample section whose record 3 has the addresses of the
sample and other values in `useCount` and `pad_to_10h`, and whose other
records are zero. -/
def sampleReaderVariant : BfsReader :=
  { valid := true
    dataSec := some sampleData
    cachedTable :=
      ⟨(List.range 10).map fun i =>
          if i = 3 then ⟨4096 + 160 + 6, 4096 + 160 + 9, 77, 5⟩ else ⟨0, 0, 0, 0⟩, by simp⟩ }

/-! ## Auxiliary facts -/

open BfsReader

theorem Length_eq_sub (e : bfsTabEntry) (h : e.startAddress ≤ e.endAddress)
    (h32 : e.endAddress < 2 ^ 32) : e.Length = e.endAddress - e.startAddress := by
  unfold bfsTabEntry.Length
  omega

theorem UnsectionedAddress_eq_sub (a : Nat) (sec : Section) (ha : a < 2 ^ 64)
    (hb : sec.address ≤ a) : UnsectionedAddress a sec = a - sec.address := by
  unfold UnsectionedAddress
  omega

theorem readU32_lt (data : List Byte) (off : Nat) : readU32 data off < 2 ^ 32 := by
  unfold readU32 le32
  have h0 := (data.getD off 0).isLt
  have h1 := (data.getD (off + 1) 0).isLt
  have h2 := (data.getD (off + 2) 0).isLt
  have h3 := (data.getD (off + 3) 0).isLt
  omega

theorem ReadFile_state (r : BfsReader) (id : Nat) (b : List Byte) (r' : BfsReader)
    (h : r.ReadFile id = .ok (b, r')) : r' = r := by
  unfold ReadFile at h
  split at h
  · cases h; rfl
  · split at h
    · cases h; rfl
    · split at h
      · cases h
      · split at h
        · cases h
        · simp only at h
          split at h
          · cases h
          · cases h; rfl

theorem ReadFile_slice (r : BfsReader) (sec : Section) (id : Nat) (e : bfsTabEntry)
    (hv : r.valid = true) (hs : r.dataSec = some sec) (hid : id ≠ 0)
    (he : r.cachedTable.get? id = some e)
    (hlo : sec.address ≤ e.startAddress) (hse : e.startAddress < e.endAddress)
    (h32 : e.endAddress < 2 ^ 32) (hhi : e.endAddress ≤ sec.address + sec.data.length) :
    r.ReadFile id =
      .ok ((sec.data.take (e.endAddress - sec.address)).drop (e.startAddress - sec.address), r) := by
  have hlen := Length_eq_sub e (Nat.le_of_lt hse) h32
  have hoff := UnsectionedAddress_eq_sub e.startAddress sec (by omega) hlo
  have hfit : e.startAddress - sec.address + (e.endAddress - e.startAddress) ≤ sec.data.length := by
    omega
  have hptr : ¬ sec.data.length < e.startAddress - sec.address := by omega
  have hne : ¬ e.endAddress - e.startAddress = 0 := by omega
  have hsub : e.endAddress - sec.address - (e.startAddress - sec.address) =
      e.endAddress - e.startAddress := by omega
  unfold ReadFile
  simp only [bfsID.Invalid, hid, hv, he, hs, hlen, hoff, memcpy, resize]
  simp [hfit, hptr, hne, List.drop_take, hsub]

theorem memcpy_length (dst src : List Byte) (srcOff n : Nat) (b : List Byte)
    (h : memcpy dst src srcOff n = .ok b) : b.length = dst.length ∧ dst.length ≠ 0 := by
  unfold memcpy at h
  split at h
  · cases h
  · split at h
    · cases h
    · next hne =>
      split at h
      · next hc =>
        cases h
        simp only [List.length_append, List.length_take, List.length_drop]
        omega
      · cases h

theorem ReadFile_nonempty (r r' : BfsReader) (id : Nat) (b : List Byte)
    (hv : r.valid = true) (hid : id ≠ 0) (h : r.ReadFile id = .ok (b, r')) :
    b.length ≠ 0 := by
  unfold ReadFile at h
  simp only [bfsID.Invalid, hid, if_false, hv, Bool.not_true, Bool.false_eq_true] at h
  split at h
  · cases h
  · split at h
    · cases h
    · split at h
      · cases h
      · next buffer hm =>
        cases h
        have := memcpy_length _ _ _ _ _ hm
        omega

theorem Table.get?_set (t : Table) (i j : Nat) (e : bfsTabEntry) :
    (t.set i e).get? j = if i = j ∧ i < 10 then some e else t.get? j := by
  unfold Table.get? Table.set
  simp only [List.getElem?_set, t.property]
  by_cases hij : i = j
  · subst hij
    by_cases hi : i < 10
    · simp [hi]
    · have : t.val.length ≤ i := by rw [t.property]; omega
      simp [hi, List.getElem?_eq_none this]
  · simp [hij]

theorem readTableLoop_ok (sec : Section) (A off : Nat)
    (hoff : UnsectionedAddress A sec = off) (h : off + 160 ≤ sec.data.length) :
    ∀ (fuel i : Nat) (t : Table), i ≤ 10 → 10 - i < fuel →
      ∃ t', readTableLoop (some sec) A fuel i t = .ok t' ∧
        ∀ j, t'.get? j =
          if i ≤ j ∧ j < 10 then some (decodeEntry sec.data (off + 16 * j)) else t.get? j := by
  intro fuel
  induction fuel with
  | zero => intro i t _ hf; omega
  | succ fuel ih =>
    intro i t hi hf
    unfold readTableLoop
    by_cases hlt : i < 10
    · have hfit : off + 16 * i + 16 ≤ sec.data.length := by omega
      simp only [hlt, if_true, hoff, readEntry, hfit]
      obtain ⟨t', ht', hget⟩ := ih (i + 1) (t.set i (decodeEntry sec.data (off + 16 * i)))
        (by omega) (by omega)
      refine ⟨t', ht', ?_⟩
      intro j
      rw [hget j, Table.get?_set]
      by_cases hj : i = j
      · subst hj
        simp [hlt]
      · by_cases hj2 : i + 1 ≤ j ∧ j < 10
        · have : i ≤ j ∧ j < 10 := ⟨by omega, hj2.2⟩
          simp [hj2, this]
        · have : ¬ (i ≤ j ∧ j < 10) := by omega
          simp [hj2, this, hj]
    · refine ⟨t, by simp [hlt], ?_⟩
      intro j
      have : ¬ (i ≤ j ∧ j < 10) := by omega
      simp [this]

theorem new_ok (elfFile : elfio) (uninit : Nat) (sec : Section) (A : Nat)
    (hsec : elfFile.sectionByName ".data" = some sec)
    (hA : (elfFile.get_symbol "bfsTab").getD uninit = A)
    (hA64 : A < 2 ^ 64) (hB : sec.address ≤ A)
    (htab : A - sec.address + 160 ≤ sec.data.length) :
    ∃ r, BfsReader.new (some elfFile) uninit = .ok r ∧ r.valid = true ∧
      r.dataSec = some sec ∧
      ∀ j, j < 10 → r.cachedTable.get? j = some (decodeEntry sec.data (A - sec.address + 16 * j)) := by
  have hoff := UnsectionedAddress_eq_sub A sec hA64 hB
  obtain ⟨t, ht, hget⟩ := readTableLoop_ok sec A (A - sec.address) hoff htab 11 0 Table.zero
    (by omega) (by omega)
  refine ⟨{ valid := true, dataSec := some sec, cachedTable := t }, ?_, rfl, rfl, ?_⟩
  · unfold BfsReader.new
    simp only [hsec, hA, ht]
  · intro j hj
    rw [hget j]
    simp [hj]

theorem new_valid (elfFile : elfio) (uninit : Nat) (r : BfsReader)
    (h : BfsReader.new (some elfFile) uninit = .ok r) : r.valid = true := by
  unfold BfsReader.new at h
  simp only at h
  split at h
  · cases h
  · cases h; rfl

theorem mainLoop_run (fsys : FileSystem) (outPath : String) (r : BfsReader)
    (nameOf : Nat → String) (content : Nat → List Byte)
    (hname : ∀ i, 1 ≤ i → i ≤ 9 → BfsIdToFileName i = .ok (nameOf i))
    (hread : ∀ i, 1 ≤ i → i ≤ 9 → r.ReadFile i = .ok (content i, r))
    (hne : ∀ i, 1 ≤ i → i ≤ 9 → (content i).length ≠ 0) :
    ∀ (fuel i : Nat) (out : List Event), 1 ≤ i → i ≤ 10 → 10 - i < fuel →
      mainLoop fsys outPath fuel i r out =
        .ok (out ++ (List.range' i (10 - i)).map (fun k =>
          if fsys.canOpen (pathJoin outPath (nameOf k)) then
            Event.wrote (pathJoin outPath (nameOf k)) (content k)
          else Event.openFailed (pathJoin outPath (nameOf k)))) := by
  intro fuel
  induction fuel with
  | zero => intro i out _ _ hf; omega
  | succ fuel ih =>
    intro i out h1 h10 hf
    unfold mainLoop
    by_cases hlt : i < 10
    · have hnext : (i + 1) % 2 ^ 32 = i + 1 := by omega
      have hcount : 10 - i = (10 - (i + 1)) + 1 := by omega
      simp only [hlt, if_true, hname i h1 (by omega), hread i h1 (by omega), hnext,
        if_neg (hne i h1 (by omega))]
      rw [hcount, List.range'_succ, List.map_cons]
      have hrest := fun out => ih (i + 1) out (by omega) (by omega) (by omega)
      by_cases hopen : fsys.canOpen (pathJoin outPath (nameOf i)) = true
      · rw [if_pos hopen, if_pos hopen, hrest, List.append_assoc]
        rfl
      · rw [if_neg hopen, if_neg hopen, hrest, List.append_assoc]
        rfl
    · have hi : i = 10 := by omega
      subst hi
      simp

theorem new_uninit_irrelevant (elfFile : elfio) (A : Nat)
    (hsym : elfFile.get_symbol "bfsTab" = some A) (u1 u2 : Nat) :
    BfsReader.new (some elfFile) u1 = BfsReader.new (some elfFile) u2 := by
  unfold BfsReader.new
  simp only [hsym, Option.getD_some]

theorem mainLoop_total (fsys : FileSystem) (outPath : String) (r : BfsReader)
    (hv : r.valid = true)
    (hread : ∀ i, 1 ≤ i → i ≤ 9 → ∃ b, r.ReadFile i = .ok (b, r)) (out : List Event) :
    ∃ events, mainLoop fsys outPath 10 1 r out = .ok events ∧
      ∃ rest, events = out ++ rest ∧ rest.length = 9 := by
  have hname : ∀ i, 1 ≤ i → i ≤ 9 →
      BfsIdToFileName i = .ok (BfsIdToFileName.table.getD i "") := by
    intro i h1 h9
    interval_cases i <;> rfl
  have hread2 : ∀ i, 1 ≤ i → i ≤ 9 →
      r.ReadFile i = .ok (((r.ReadFile i).toOption.map Prod.fst).getD [], r) := by
    intro i h1 h9
    obtain ⟨b, hb⟩ := hread i h1 h9
    rw [hb]
    rfl
  have hne : ∀ i, 1 ≤ i → i ≤ 9 →
      (((r.ReadFile i).toOption.map Prod.fst).getD []).length ≠ 0 :=
    fun i h1 h9 => ReadFile_nonempty r r i _ hv (by omega) (hread2 i h1 h9)
  exact ⟨_, mainLoop_run fsys outPath r _ _ hname hread2 hne 10 1 out (by omega) (by omega)
    (by omega), _, rfl, by simp⟩

theorem Table.get?_isSome (t : Table) (id : Nat) : (t.get? id).isSome = true ↔ id ≤ 9 := by
  unfold Table.get?
  constructor
  · intro h
    by_contra hn
    have h1 : t.val.length ≤ id := by rw [t.property]; omega
    rw [List.getElem?_eq_none h1] at h
    simp at h
  · intro h
    have h1 : id < t.val.length := by rw [t.property]; omega
    rw [List.getElem?_eq_getElem h1]
    rfl

theorem memcpy_error (dst src : List Byte) (srcOff n : Nat) (f : Fault)
    (h : memcpy dst src srcOff n = .error f) : f = .outOfBounds ∨ f = .vectorIndex := by
  unfold memcpy at h
  split at h
  · cases h
    exact Or.inl rfl
  · split at h
    · cases h
      exact Or.inr rfl
    · split at h
      · cases h
      · cases h
        exact Or.inl rfl

/-- Round trip for a non-empty file: for a loadable image whose `.data`
section `sec` has base address `B = sec.address` and bytes `D = sec.data`,
whose `bfsTab` symbol has address `A` with the ten records at `A` inside `D`,
and for an id in 1..9 whose record satisfies
`B ≤ startAddress < endAddress ≤ B + |D|`, the constructor succeeds, caches
that record, and `ReadFile id` returns exactly the bytes
`D[startAddress - B .. endAddress - B)`. -/
theorem ReadFile_roundtrip_nonempty (elfFile : elfio) (uninit : Nat) (sec : Section)
    (A id : Nat)
    (hsec : elfFile.sectionByName ".data" = some sec)
    (hsym : elfFile.get_symbol "bfsTab" = some A)
    (hA64 : A < 2 ^ 64) (hB : sec.address ≤ A)
    (htab : A - sec.address + 160 ≤ sec.data.length)
    (h1 : 1 ≤ id) (h9 : id ≤ 9)
    (hlo : sec.address ≤ (decodeEntry sec.data (A - sec.address + 16 * id)).startAddress)
    (hse : (decodeEntry sec.data (A - sec.address + 16 * id)).startAddress <
      (decodeEntry sec.data (A - sec.address + 16 * id)).endAddress)
    (hhi : (decodeEntry sec.data (A - sec.address + 16 * id)).endAddress ≤
      sec.address + sec.data.length) :
    ∃ r e, BfsReader.new (some elfFile) uninit = .ok r ∧ r.Valid = true ∧
      r.cachedTable.get? id = some e ∧
      e = decodeEntry sec.data (A - sec.address + 16 * id) ∧
      r.ReadFile id =
        .ok ((sec.data.take (e.endAddress - sec.address)).drop (e.startAddress - sec.address),
          r) := by
  obtain ⟨r, hnew, hv, hs, hget⟩ := new_ok elfFile uninit sec A hsec (by simp [hsym]) hA64 hB htab
  refine ⟨r, _, hnew, hv, hget id (by omega), rfl, ?_⟩
  exact ReadFile_slice r sec id _ hv hs (by omega) (hget id (by omega)) hlo hse
    (readU32_lt _ _) hhi

/-- Length of a non-empty file: for a valid reader over the section `sec` and
an id in 1..9 whose cached record `e` has `startAddress < endAddress` and
whose range lies inside the section, `ReadFile id` returns a buffer of
exactly `e.endAddress - e.startAddress` bytes. -/
theorem ReadFile_length_nonempty (r : BfsReader) (sec : Section) (id : Nat) (e : bfsTabEntry)
    (hv : r.Valid = true) (hs : r.dataSec = some sec)
    (h1 : 1 ≤ id) (h9 : id ≤ 9)
    (he : r.cachedTable.get? id = some e)
    (h32 : e.endAddress < 2 ^ 32)
    (hse : e.startAddress < e.endAddress)
    (hlo : sec.address ≤ e.startAddress)
    (hhi : e.endAddress ≤ sec.address + sec.data.length) :
    ∃ bytes, r.ReadFile id = .ok (bytes, r) ∧
      bytes.length = e.endAddress - e.startAddress ∧
      bytes.length = e.Length := by
  refine ⟨_, ReadFile_slice r sec id e hv hs (by omega) he hlo hse h32 hhi, ?_, ?_⟩
  · simp only [List.length_drop, List.length_take]
    omega
  · rw [Length_eq_sub e (Nat.le_of_lt hse) h32]
    simp only [List.length_drop, List.length_take]
    omega

/-! ## The claims -/

set_option maxRecDepth 100000 in
/-- C1 (the code at the failing input). The image `zeroLengthElf` loads, its
`bfsTab` symbol points at ten records inside `.data`, and record 1 has
`startAddress = endAddress = 0x10a0` with `B ≤ 0x10a0 ≤ B + |D|`, so the
claim promises the empty slice `D[0xa0 .. 0xa0)`.  The constructor caches
that record, and `ReadFile 1` resizes its buffer to zero bytes and then takes
`&buffer[0]`: it ends in the fault, not in the empty sequence.  Record 2 of
the same image, a file of three bytes, is returned byte for byte. -/
theorem roundtrip_faults_on_empty_file :
    zeroLengthElf.sectionByName ".data" = some zeroLengthData ∧
      zeroLengthElf.get_symbol "bfsTab" = some 4096 ∧
      4096 - zeroLengthData.address + 160 ≤ zeroLengthData.data.length ∧
      BfsReader.new (some zeroLengthElf) 0 = .ok zeroLengthReader ∧
      zeroLengthReader.cachedTable.get? 1 = some ⟨4256, 4256, 1, 0⟩ ∧
      (zeroLengthData.address ≤ 4256 ∧ 4256 ≤ 4256 ∧
        4256 ≤ zeroLengthData.address + zeroLengthData.data.length) ∧
      (zeroLengthData.data.take (4256 - zeroLengthData.address)).drop
        (4256 - zeroLengthData.address) = [] ∧
      zeroLengthReader.ReadFile 1 = .error .vectorIndex ∧
      zeroLengthReader.ReadFile 2 = .ok ([32, 33, 34], zeroLengthReader) := by
  decide

set_option maxRecDepth 100000 in
/-- C2 (the code at the failing input). The reader `zeroLengthReader` is
valid and its record 1 has `endAddress = startAddress` inside the data
section, so the claim promises a result of `0` bytes.  `Length` is 0, the
buffer is resized to no bytes, and `ReadFile 1` ends in the fault of
`&buffer[0]` instead of returning a buffer of that length. -/
theorem length_faults_on_empty_file :
    zeroLengthReader.Valid = true ∧
      zeroLengthReader.dataSec = some zeroLengthData ∧
      zeroLengthReader.cachedTable.get? 1 = some ⟨4256, 4256, 1, 0⟩ ∧
      (4256 ≤ 4256 ∧ zeroLengthData.address ≤ 4256 ∧
        4256 ≤ zeroLengthData.address + zeroLengthData.data.length) ∧
      (⟨4256, 4256, 1, 0⟩ : bfsTabEntry).Length = 0 ∧
      resize [] (⟨4256, 4256, 1, 0⟩ : bfsTabEntry).Length = [] ∧
      (zeroLengthReader.ReadFile 1).map (fun p => p.1.length) = .error .vectorIndex ∧
      (zeroLengthReader.ReadFile 1).map (fun p => p.1.length) ≠ .ok (4256 - 4256) := by
  decide

/-- C3. `ReadFile 0` returns the empty byte sequence in every reader state,
valid or not, whatever the cached table and the data section hold, and leaves
the state as it was. -/
theorem ReadFile_zero_empty (r : BfsReader) : r.ReadFile 0 = .ok ([], r) := by
  rfl

/-- C4. When the load step fails the constructor yields a reader whose
`Valid` is false, and `ReadFile id` on it returns the empty sequence for
every id; the same holds for every reader with `valid = false`, whatever its
table and its section pointer are, so neither is consulted. -/
theorem load_failure_reads_empty (uninit : Nat) :
    ∃ r, BfsReader.new none uninit = .ok r ∧ r.Valid = false ∧
      (∀ id, r.ReadFile id = .ok ([], r)) ∧
      ∀ (dataSec : Option Section) (cachedTable : Table) (id : Nat),
        ReadFile { valid := false, dataSec := dataSec, cachedTable := cachedTable } id =
          .ok ([], { valid := false, dataSec := dataSec, cachedTable := cachedTable }) := by
  have key : ∀ (dataSec : Option Section) (cachedTable : Table) (id : Nat),
      ReadFile { valid := false, dataSec := dataSec, cachedTable := cachedTable } id =
        .ok ([], { valid := false, dataSec := dataSec, cachedTable := cachedTable }) := by
    intro d t id
    unfold ReadFile
    by_cases h : id = bfsID.Invalid <;> simp [h]
  exact ⟨_, rfl, rfl, fun id => key _ _ id, key⟩

set_option maxRecDepth 100000 in
/-- C5 (the code at the failing input). The image `noSymbolElf` loads, has a
`.data` section and no symbol `bfsTab`.  The constructor does not test what
`get_symbol` returns: when the unassigned local happens to hold `0x1000` it
returns a reader whose `Valid` is true, and for no value of that local does
it return a reader whose `Valid` is false. -/
theorem missing_symbol_reader_valid :
    noSymbolElf.sectionByName ".data" = some sampleData ∧
      noSymbolElf.get_symbol "bfsTab" = none ∧
      BfsReader.new (some noSymbolElf) 4096 = .ok sampleReader ∧
      sampleReader.Valid = true ∧
      ∀ uninit, (BfsReader.new (some noSymbolElf) uninit).map BfsReader.Valid ≠ .ok false := by
  refine ⟨by decide, by decide, by decide, rfl, ?_⟩
  intro uninit
  cases h : BfsReader.new (some noSymbolElf) uninit with
  | error f => simp [Except.map]
  | ok r =>
    have := new_valid _ _ _ h
    simp [Except.map, BfsReader.Valid, this]

/-- C6 (the code at the failing input). The image `noDataElf` loads and has
no section named `.data`.  The constructor does not test the section pointer:
it sets `valid`, enters the table loop and calls through the null pointer,
so no reader with `Valid` false is produced and the table read is
attempted. -/
theorem missing_data_section_faults :
    noDataElf.sectionByName ".data" = none ∧
      ∀ uninit, BfsReader.new (some noDataElf) uninit = .error .nullSection := by
  refine ⟨by decide, ?_⟩
  intro uninit
  rfl

/-- C7. For every id in 1..9 `BfsIdToFileName` returns the name the static
table lists for it. -/
theorem BfsIdToFileName_values :
    BfsIdToFileName 1 = .ok "hdreg1.vu1" ∧
    BfsIdToFileName 2 = .ok "hdreg2.vu1" ∧
    BfsIdToFileName 3 = .ok "hdregu.rmi" ∧
    BfsIdToFileName 4 = .ok "k_vrtb.rmi" ∧
    BfsIdToFileName 5 = .ok "nhead.rmi" ∧
    BfsIdToFileName 6 = .ok "p.rtx" ∧
    BfsIdToFileName 7 = .ok "tex.rtx" ∧
    BfsIdToFileName 8 = .ok "wat.rtx" ∧
    BfsIdToFileName 9 = .ok "t_smooth.rmi" := by
  decide

/-- C8. `BfsIdToFileName` is injective on the ids 0..9: two different ids in
that range both get a name and the two names differ; with one of them 0 this
says that no name of 1..9 is the sentinel of id 0. -/
theorem BfsIdToFileName_injective (i j : Nat) (hi : i ≤ 9) (hj : j ≤ 9) (hij : i ≠ j) :
    ∃ a b, BfsIdToFileName i = .ok a ∧ BfsIdToFileName j = .ok b ∧ a ≠ b := by
  interval_cases i <;> interval_cases j <;>
    first
      | exact absurd rfl hij
      | exact ⟨_, _, rfl, rfl, by decide⟩

theorem BfsIdToFileName_injective_witness :
    (1 ≤ 9 ∧ 0 ≤ 9 ∧ 1 ≠ 0) ∧
      ∃ a b, BfsIdToFileName 1 = .ok a ∧ BfsIdToFileName 0 = .ok b ∧ a ≠ b :=
  ⟨by decide, BfsIdToFileName_injective 1 0 (by decide) (by decide) (by decide)⟩

/-- C9. For an address `a` inside a section with base `b = sec.address` and
size `n = sec.data.length`, that is `b ≤ a < b + n`, `UnsectionedAddress`
returns `a - b`, which is an offset below `n`.  (`a < 2 ^ 64` says that `a`
is a `std::size_t`.) -/
theorem UnsectionedAddress_in_section (a : Nat) (sec : Section) (ha : a < 2 ^ 64)
    (hlo : sec.address ≤ a) (hhi : a < sec.address + sec.data.length) :
    UnsectionedAddress a sec = a - sec.address ∧
      UnsectionedAddress a sec < sec.data.length := by
  rw [UnsectionedAddress_eq_sub a sec ha hlo]
  exact ⟨rfl, by omega⟩

set_option maxRecDepth 100000 in
theorem UnsectionedAddress_in_section_witness :
    (4262 < 2 ^ 64 ∧ sampleData.address ≤ 4262 ∧
        4262 < sampleData.address + sampleData.data.length) ∧
      UnsectionedAddress 4262 sampleData = 4262 - sampleData.address ∧
      UnsectionedAddress 4262 sampleData < sampleData.data.length :=
  ⟨by decide, UnsectionedAddress_in_section 4262 sampleData (by decide) (by decide) (by decide)⟩

set_option maxRecDepth 100000 in
/-- C11 (counterexample). The sample image loads and gives a valid reader,
yet on a file system where `out` is absent and `fs::create_directories`
throws the process does not end with status zero: it is ended by the
exception.  So a run that is not a failed load need not have status zero.
The image without `.data` loads as well, and there the run ends in the null
pointer call of the constructor. -/
theorem loaded_image_not_status_zero :
    (BfsReader.new (some sampleElf) 0).map BfsReader.Valid = .ok true ∧
      main (some sampleElf) 0 noDirectoryFileSystem = .ok (.terminate, []) ∧
      main (some noDataElf) 0 sampleFileSystem = .error .nullSection ∧
      ∀ events, main (some sampleElf) 0 noDirectoryFileSystem ≠ .ok (.exit 0, events) := by
  refine ⟨by decide, by decide, by decide, ?_⟩
  intro events
  have h : main (some sampleElf) 0 noDirectoryFileSystem = .ok (.terminate, []) := by decide
  rw [h]
  simp

/-- C11 (amended). For a reader `r` the constructor built, on which `ReadFile`
is defined for the ids 1..9, the driver ends in one of three ways.  It
returns status 1 exactly when the load step failed, which is exactly when `r`
is not valid, and then the only action is the message: no output file is
attempted.  It returns status 0 exactly when the image loaded and `out`
exists or is created without an exception, whatever streams open, also when
none does.  It is ended by an uncaught exception exactly when the image
loaded and `fs::exists` or `fs::create_directories` throws, and then nothing
has been done. -/
theorem main_exit_status (loaded : Option elfio) (uninit : Nat) (fsys : FileSystem)
    (r : BfsReader) (hnew : BfsReader.new loaded uninit = .ok r)
    (hread : ∀ i, 1 ≤ i → i ≤ 9 → ∃ b, r.ReadFile i = .ok (b, r)) :
    ∃ outcome events, main loaded uninit fsys = .ok (outcome, events) ∧
      (outcome = .exit 1 ↔ loaded = none) ∧
      (outcome = .exit 1 ↔ r.Valid = false) ∧
      (outcome = .exit 1 → events = [Event.invalidElf]) ∧
      (outcome = .exit 0 ↔ loaded ≠ none ∧
        (fsys.pathExists "out" = some true ∨
          (fsys.pathExists "out" = some false ∧ fsys.createDirectories "out" = true))) ∧
      (outcome = .terminate ↔ loaded ≠ none ∧
        ¬ (fsys.pathExists "out" = some true ∨
          (fsys.pathExists "out" = some false ∧ fsys.createDirectories "out" = true))) ∧
      (outcome = .terminate → events = []) := by
  cases loaded with
  | none =>
    have hr : r = { valid := false, dataSec := none, cachedTable := Table.zero } := by
      unfold BfsReader.new at hnew
      cases hnew
      rfl
    subst hr
    exact ⟨.exit 1, [Event.invalidElf], rfl, by simp, by simp [BfsReader.Valid],
      fun _ => rfl, by simp, by simp, by simp⟩
  | some elfFile =>
    have hv : r.valid = true := new_valid elfFile uninit r hnew
    have hmain : ∀ out, ∃ events, mainLoop fsys "out" 10 1 r out = .ok events :=
      fun out => (mainLoop_total fsys "out" r hv hread out).imp fun _ h => h.1
    cases hp : fsys.pathExists "out" with
    | none =>
      refine ⟨.terminate, [], ?_, by simp, by simp [BfsReader.Valid, hv], by simp, by simp,
        by simp, by simp⟩
      unfold main
      simp only [hnew, BfsReader.Valid, hv, Bool.not_true, Bool.false_eq_true, if_false, hp]
    | some present =>
      cases present with
      | true =>
        obtain ⟨events, hev⟩ := hmain []
        refine ⟨.exit 0, events, ?_, by simp, by simp [BfsReader.Valid, hv], by simp, by simp,
          by simp, by simp⟩
        unfold main
        simp only [hnew, BfsReader.Valid, hv, Bool.not_true, Bool.false_eq_true, if_false, hp,
          hev]
      | false =>
        cases hc : fsys.createDirectories "out" with
        | true =>
          obtain ⟨events, hev⟩ := hmain [Event.createDirectories "out"]
          refine ⟨.exit 0, events, ?_, by simp, by simp [BfsReader.Valid, hv], by simp,
            by simp, by simp, by simp⟩
          unfold main
          simp only [hnew, BfsReader.Valid, hv, Bool.not_true, Bool.false_eq_true, if_false,
            hp, hc, if_true, hev]
        | false =>
          refine ⟨.terminate, [], ?_, by simp, by simp [BfsReader.Valid, hv], by simp,
            by simp, by simp, by simp⟩
          unfold main
          simp only [hnew, BfsReader.Valid, hv, Bool.not_true, Bool.false_eq_true, if_false,
            hp, hc]

set_option maxRecDepth 100000 in
theorem main_exit_status_witness :
    (BfsReader.new (some sampleElf) 0 = .ok sampleReader ∧
        main (some sampleElf) 0 noOpenFileSystem =
          .ok (.exit 0, [.openFailed "out/hdreg1.vu1", .openFailed "out/hdreg2.vu1",
            .openFailed "out/hdregu.rmi", .openFailed "out/k_vrtb.rmi",
            .openFailed "out/nhead.rmi", .openFailed "out/p.rtx", .openFailed "out/tex.rtx",
            .openFailed "out/wat.rtx", .openFailed "out/t_smooth.rmi"]) ∧
        main none 0 noOpenFileSystem = .ok (.exit 1, [.invalidElf])) ∧
      ∃ outcome events, main (some sampleElf) 0 noOpenFileSystem = .ok (outcome, events) ∧
        (outcome = .exit 1 ↔ some sampleElf = none) ∧
        (outcome = .exit 1 ↔ sampleReader.Valid = false) ∧
        (outcome = .exit 1 → events = [Event.invalidElf]) ∧
        (outcome = .exit 0 ↔ some sampleElf ≠ none ∧
          (noOpenFileSystem.pathExists "out" = some true ∨
            (noOpenFileSystem.pathExists "out" = some false ∧
              noOpenFileSystem.createDirectories "out" = true))) ∧
        (outcome = .terminate ↔ some sampleElf ≠ none ∧
          ¬ (noOpenFileSystem.pathExists "out" = some true ∨
            (noOpenFileSystem.pathExists "out" = some false ∧
              noOpenFileSystem.createDirectories "out" = true))) ∧
        (outcome = .terminate → events = []) :=
  ⟨by decide,
    main_exit_status (some sampleElf) 0 noOpenFileSystem sampleReader (by decide)
      (fun i h1 h9 => ⟨sampleFile i, by interval_cases i <;> decide⟩)⟩

set_option maxRecDepth 100000 in
/-- C12 (the code at the failing input). The image `noSymbolElf` has no
symbol `bfsTab`, so `bfsTabStartAddress` is used unassigned.  Two
constructions from that one image, the local holding `0x1000` in the one and
`0x1010` in the other, both give a valid reader, yet `ReadFile 1` returns
different bytes on the two; with the local holding 0 the construction faults.
For the image with the symbol, and for a failed load, the local plays no
part. -/
theorem construction_depends_on_unassigned_local :
    noSymbolElf.get_symbol "bfsTab" = none ∧
      (BfsReader.new (some noSymbolElf) 4096).map BfsReader.Valid = .ok true ∧
      (BfsReader.new (some noSymbolElf) 4112).map BfsReader.Valid = .ok true ∧
      (BfsReader.new (some noSymbolElf) 4096).bind
          (fun r => (r.ReadFile 1).map Prod.fst) = .ok [16, 17, 18] ∧
      (BfsReader.new (some noSymbolElf) 4112).bind
          (fun r => (r.ReadFile 1).map Prod.fst) = .ok [32, 33, 34] ∧
      BfsReader.new (some noSymbolElf) 0 = .error .outOfBounds ∧
      (∀ u1 u2, BfsReader.new (some sampleElf) u1 = BfsReader.new (some sampleElf) u2) ∧
      (∀ u1 u2, BfsReader.new none u1 = BfsReader.new none u2) := by
  refine ⟨by decide, by decide, by decide, by decide, by decide, by decide, ?_, ?_⟩
  · exact new_uninit_irrelevant sampleElf 4096 (by decide)
  · intro u1 u2
    rfl

/-- C14. `ReadFile` does not change the reader: whenever `ReadFile id`
returns, the state after the call is the state before it, so the validity
flag, the ten cached records and the section pointer are the same, and
calling `ReadFile id` again returns the same bytes. -/
theorem ReadFile_frame (r r' : BfsReader) (id : Nat) (b : List Byte)
    (h : r.ReadFile id = .ok (b, r')) :
    r' = r ∧ r'.Valid = r.Valid ∧ r'.cachedTable = r.cachedTable ∧
      r'.dataSec = r.dataSec ∧ r'.ReadFile id = .ok (b, r') := by
  have hr := ReadFile_state r id b r' h
  subst hr
  exact ⟨rfl, rfl, rfl, rfl, h⟩

set_option maxRecDepth 100000 in
theorem ReadFile_frame_witness :
    sampleReader.ReadFile 3 = .ok ([48, 49, 50], sampleReader) ∧
      (sampleReader = sampleReader ∧ sampleReader.Valid = sampleReader.Valid ∧
        sampleReader.cachedTable = sampleReader.cachedTable ∧
        sampleReader.dataSec = sampleReader.dataSec ∧
        sampleReader.ReadFile 3 = .ok ([48, 49, 50], sampleReader)) :=
  ⟨by decide, ReadFile_frame sampleReader sampleReader 3 [48, 49, 50] (by decide)⟩

/-- C15. Non-interference: for an id in 1..9 and two valid readers over data
sections with the same base address and the same bytes, whose records `id`
have the same `startAddress` and the same `endAddress`, `ReadFile id` gives
the same outcome, the same bytes or the same fault.  Nothing is assumed about
`useCount`, about the unused field, or about the other records. -/
theorem ReadFile_noninterference (r1 r2 : BfsReader) (s1 s2 : Section) (id : Nat)
    (e1 e2 : bfsTabEntry) (h1 : 1 ≤ id) (h9 : id ≤ 9)
    (hv1 : r1.Valid = true) (hv2 : r2.Valid = true)
    (hs1 : r1.dataSec = some s1) (hs2 : r2.dataSec = some s2)
    (haddr : s1.address = s2.address) (hdata : s1.data = s2.data)
    (he1 : r1.cachedTable.get? id = some e1) (he2 : r2.cachedTable.get? id = some e2)
    (hstart : e1.startAddress = e2.startAddress) (hend : e1.endAddress = e2.endAddress) :
    (r1.ReadFile id).map Prod.fst = (r2.ReadFile id).map Prod.fst := by
  have hid : id ≠ 0 := by omega
  have hlen : e1.Length = e2.Length := by
    unfold bfsTabEntry.Length
    rw [hstart, hend]
  have hoff : UnsectionedAddress e1.startAddress s1 = UnsectionedAddress e2.startAddress s2 := by
    unfold UnsectionedAddress
    rw [hstart, haddr]
  unfold BfsReader.Valid at hv1 hv2
  unfold ReadFile
  simp only [bfsID.Invalid, hid, if_false, hv1, hv2, Bool.not_true, Bool.false_eq_true, he1, he2,
    hs1, hs2, hoff, hlen, hdata]
  cases memcpy (resize [] e2.Length) s2.data (UnsectionedAddress e2.startAddress s2)
    e2.Length with
  | error f => rfl
  | ok buffer => rfl

set_option maxRecDepth 100000 in
theorem ReadFile_noninterference_witness :
    (sampleReader.cachedTable.get? 3 = some ⟨4262, 4265, 3, 0⟩ ∧
        sampleReaderVariant.cachedTable.get? 3 = some ⟨4262, 4265, 77, 5⟩ ∧
        sampleReader.cachedTable.get? 4 ≠ sampleReaderVariant.cachedTable.get? 4) ∧
      (sampleReader.ReadFile 3).map Prod.fst = (sampleReaderVariant.ReadFile 3).map Prod.fst :=
  ⟨by decide,
    ReadFile_noninterference sampleReader sampleReaderVariant sampleData sampleData 3
      ⟨4262, 4265, 3, 0⟩ ⟨4262, 4265, 77, 5⟩ (by decide) (by decide) (by decide) (by decide)
      (by decide) (by decide) rfl rfl (by decide) (by decide) (by decide) (by decide)⟩

/-- C16. `Length` is 32-bit unsigned arithmetic: for every record of 32-bit
fields it equals `(endAddress - startAddress) mod 2 ^ 32`, it is below
`2 ^ 32`, and with `endAddress < startAddress` it is
`2 ^ 32 - (startAddress - endAddress)`, which is not zero.  `ReadFile` sizes
its buffer to that value: `resize` gives a buffer of `Length` bytes, it is
the buffer and the count handed to `memcpy`, and every buffer `ReadFile`
returns for the record has `Length` bytes. -/
theorem Length_wraps (e : bfsTabEntry) (hs : e.startAddress < 2 ^ 32)
    (he : e.endAddress < 2 ^ 32) :
    (e.Length : Int) = ((e.endAddress : Int) - (e.startAddress : Int)) % 2 ^ 32 ∧
      e.Length < 2 ^ 32 ∧
      (e.endAddress < e.startAddress →
        e.Length = 2 ^ 32 - (e.startAddress - e.endAddress) ∧ e.Length ≠ 0) ∧
      (e.startAddress ≤ e.endAddress → e.Length = e.endAddress - e.startAddress) ∧
      (resize [] e.Length).length = e.Length ∧
      ∀ (r : BfsReader) (sec : Section) (id : Nat), r.Valid = true → id ≠ 0 →
        r.cachedTable.get? id = some e → r.dataSec = some sec →
        r.ReadFile id =
          (memcpy (resize [] e.Length) sec.data (UnsectionedAddress e.startAddress sec)
            e.Length).map (fun buffer => (buffer, r)) ∧
        ∀ b r', r.ReadFile id = .ok (b, r') → b.length = e.Length := by
  have hL : e.Length = (e.endAddress % 2 ^ 32 + 2 ^ 32 - e.startAddress % 2 ^ 32) % 2 ^ 32 := rfl
  have hres : (resize [] e.Length).length = e.Length := by simp [resize]
  refine ⟨by omega, by omega, fun h => ⟨by omega, by omega⟩, fun h => by omega, hres, ?_⟩
  intro r sec id hv hid hget hsec
  unfold BfsReader.Valid at hv
  have hrf : r.ReadFile id =
      (memcpy (resize [] e.Length) sec.data (UnsectionedAddress e.startAddress sec)
        e.Length).map (fun buffer => (buffer, r)) := by
    unfold ReadFile
    simp only [bfsID.Invalid, hid, if_false, hv, Bool.not_true, Bool.false_eq_true, hget, hsec]
    cases memcpy (resize [] e.Length) sec.data (UnsectionedAddress e.startAddress sec)
      e.Length with
    | error f => rfl
    | ok buffer => rfl
  refine ⟨hrf, ?_⟩
  intro b r' hb
  rw [hrf] at hb
  cases hm : memcpy (resize [] e.Length) sec.data (UnsectionedAddress e.startAddress sec)
    e.Length with
  | error f =>
    rw [hm] at hb
    simp [Except.map] at hb
  | ok buffer =>
    rw [hm] at hb
    simp only [Except.map, Except.ok.injEq, Prod.mk.injEq] at hb
    rw [← hb.1, (memcpy_length _ _ _ _ _ hm).1, hres]

theorem Length_wraps_witness :
    ((10 : Nat) < 2 ^ 32 ∧ (5 : Nat) < 2 ^ 32 ∧ (5 : Nat) < 10) ∧
      (⟨10, 5, 0, 0⟩ : bfsTabEntry).Length = 2 ^ 32 - (10 - 5) ∧
      (⟨10, 5, 0, 0⟩ : bfsTabEntry).Length ≠ 0 :=
  ⟨by decide,
    (Length_wraps ⟨10, 5, 0, 0⟩ (by decide) (by decide)).2.2.1 (by decide)⟩

/-- C17. `ReadFile` tests its id against 0 only.  On a valid reader the lookup
`cachedTable[id]` is inside the table exactly when `id ≤ 9`; for an id in
1..9 `ReadFile` never ends in the out-of-bounds table lookup; for every
`id ≥ 10` it ends in that lookup and does not return the empty sequence. -/
theorem ReadFile_table_bound (r : BfsReader) (id : Nat) (hv : r.Valid = true) :
    ((r.cachedTable.get? id).isSome = true ↔ id ≤ 9) ∧
      (1 ≤ id → id ≤ 9 → r.ReadFile id ≠ .error .tableIndex) ∧
      (10 ≤ id → r.ReadFile id = .error .tableIndex ∧ r.ReadFile id ≠ .ok ([], r)) := by
  unfold BfsReader.Valid at hv
  refine ⟨Table.get?_isSome _ _, ?_, ?_⟩
  · intro h1 h9
    have hid : id ≠ 0 := by omega
    have hsome := (Table.get?_isSome r.cachedTable id).2 h9
    obtain ⟨e, he⟩ := Option.isSome_iff_exists.1 hsome
    unfold ReadFile
    simp only [bfsID.Invalid, hid, if_false, hv, Bool.not_true, Bool.false_eq_true, he]
    cases r.dataSec with
    | none => simp
    | some sec =>
      simp only
      cases hc : memcpy (resize [] e.Length) sec.data (UnsectionedAddress e.startAddress sec)
        e.Length with
      | error f =>
        rcases memcpy_error _ _ _ _ f hc with hf | hf <;> rw [hf] <;> simp
      | ok buffer => simp
  · intro h10
    have hid : id ≠ 0 := by omega
    have hnone : r.cachedTable.get? id = none := by
      cases hc : r.cachedTable.get? id with
      | none => rfl
      | some e =>
        have := (Table.get?_isSome r.cachedTable id).1 (by simp [hc])
        omega
    have : r.ReadFile id = .error .tableIndex := by
      unfold ReadFile
      simp only [bfsID.Invalid, hid, if_false, hv, Bool.not_true, Bool.false_eq_true, hnone]
    exact ⟨this, by rw [this]; simp⟩

set_option maxRecDepth 100000 in
theorem ReadFile_table_bound_witness :
    sampleReader.Valid = true ∧
      (((sampleReader.cachedTable.get? 10).isSome = true ↔ 10 ≤ 9) ∧
        (1 ≤ 10 → 10 ≤ 9 → sampleReader.ReadFile 10 ≠ .error .tableIndex) ∧
        (10 ≤ 10 → sampleReader.ReadFile 10 = .error .tableIndex ∧
          sampleReader.ReadFile 10 ≠ .ok ([], sampleReader))) :=
  ⟨by decide, ReadFile_table_bound sampleReader 10 (by decide)⟩

end Bfsxtract
